import Mathlib

/-!
# Verification of the 3d-geometric-search shape-descriptor core

A shallow embedding of the similarity-search pipeline of the repository
(`backend/app/services/search/similarity_search.py`,
`backend/app/services/search/index_manager.py`,
`backend/app/services/geometry/mesh_processor.py`,
`backend/app/services/geometry/feature_extractor.py`) together with
theorems settling the specification claims about it.

Modelling conventions:
* `numpy` float arrays are modelled as `List ℝ` (float rounding is not
  modelled); 2-D arrays as `List (List ℝ)` of rows.
* A Python method that mutates `self` and may raise is modelled as a
  function returning the post state paired with an optional error; the
  post state on the error path is the state at the moment of the raise.
* `faiss.IndexFlatL2` stores the added rows in insertion order; its
  `search` computes the **squared** L2 distance from the query to every
  stored row (faiss's `METRIC_L2` never takes a square root) and returns
  the `k` smallest in ascending order of squared distance.
-/

/- ===================== DEFINITIONS ===================== -/

/-- Error raised by vector-index operations: the `ValueError` of
`SimilaritySearch.add_vectors`/`search` ("Vector dimension ... does not match
index dimension ..."), called `DimensionMismatch` in the specification. -/
inductive SearchErr where
  | dimensionMismatch
deriving DecidableEq

/-- Sum of squares of the entries of a vector (the square of
`np.linalg.norm(v)`). -/
def sumSq (v : List ℝ) : ℝ := (v.map (fun x => x * x)).sum

/-- Euclidean norm of a vector: `np.linalg.norm(v)` (and the row norm used by
`sklearn.preprocessing.normalize`). -/
noncomputable def l2norm (v : List ℝ) : ℝ := Real.sqrt (sumSq v)

/-- `SimilaritySearch._normalize_vectors`, acting row-wise:
`norms = np.linalg.norm(vectors, axis=1, keepdims=True);
norms[norms == 0] = 1; return vectors / norms`.
`sklearn.preprocessing.normalize` (used by `FeatureExtractor`) has the same
semantics for a single row: zero rows are divided by `1`, i.e. returned
unchanged. -/
noncomputable def normalize_vectors (v : List ℝ) : List ℝ :=
  let n := l2norm v
  let n2 := if n = 0 then 1 else n
  v.map (fun x => x / n2)

/-- In-memory state of a `SimilaritySearch` object: the configured dimension,
the rows stored in the `faiss.IndexFlatL2` backing store (insertion order),
and the parallel `model_ids` list. -/
structure SimilaritySearch where
  dimension : ℕ
  vectors : List (List ℝ)
  model_ids : List ℤ

/-- `SimilaritySearch.__init__` / `_initialize_index`: a fresh empty
`IndexFlatL2` of the given dimension with no model ids. -/
def SimilaritySearch.init (dimension : ℕ) : SimilaritySearch :=
  { dimension := dimension, vectors := [], model_ids := [] }

/-- `vectors.shape[1]` of the 2-D numpy array handed to `add_vectors`
(all rows of a 2-D array have the same length). -/
def shape1 (rows : List (List ℝ)) : ℕ := (rows.headD []).length

/-- `SimilaritySearch.add_vectors`: raise `ValueError` if `vectors.shape[1]`
differs from the index dimension (before any mutation), otherwise append the
row-normalized vectors to the index and extend `model_ids`. -/
noncomputable def SimilaritySearch.add_vectors (st : SimilaritySearch)
    (rows : List (List ℝ)) (ids : List ℤ) : SimilaritySearch × Option SearchErr :=
  if shape1 rows ≠ st.dimension then (st, some .dimensionMismatch)
  else ({ st with
            vectors := st.vectors ++ rows.map normalize_vectors,
            model_ids := st.model_ids ++ ids }, none)

/-- Squared Euclidean distance between two equal-length vectors — the value
`faiss.IndexFlatL2.search` reports for a stored row. -/
def sqDist (q v : List ℝ) : ℝ :=
  ((q.zip v).map (fun p => (p.1 - p.2) * (p.1 - p.2))).sum

/-- Ranking used by the faiss flat scan: ascending squared distance, ties kept
in insertion order (an entry seen earlier is never displaced by an equal
later distance). -/
def knnLe (a b : ℕ × ℝ) : Prop := a.2 < b.2 ∨ (a.2 = b.2 ∧ a.1 ≤ b.1)

noncomputable instance : DecidableRel knnLe := fun _ _ => Classical.propDecidable _

instance : IsTrans (ℕ × ℝ) knnLe where
  trans a b c hab hbc := by
    rcases hab with hab | ⟨hab, hab2⟩ <;> rcases hbc with hbc | ⟨hbc, hbc2⟩
    · exact Or.inl (hab.trans hbc)
    · exact Or.inl (lt_of_lt_of_le hab (le_of_eq hbc))
    · exact Or.inl (lt_of_le_of_lt (le_of_eq hab) hbc)
    · exact Or.inr ⟨hab.trans hbc, hab2.trans hbc2⟩

instance : IsTotal (ℕ × ℝ) knnLe where
  total a b := by
    rcases lt_trichotomy a.2 b.2 with h | h | h
    · exact Or.inl (Or.inl h)
    · rcases Nat.le_total a.1 b.1 with h1 | h1
      · exact Or.inl (Or.inr ⟨h, h1⟩)
      · exact Or.inr (Or.inr ⟨h.symm, h1⟩)
    · exact Or.inr (Or.inl h)

/-- The `(index, squared distance)` scan the faiss flat index performs for a
(already normalized) query over every stored row. -/
noncomputable def scoredOf (st : SimilaritySearch) (qn : List ℝ) : List (ℕ × ℝ) :=
  st.vectors.enum.map (fun p => (p.1, sqDist qn p.2))

/-- `distances, indices = self.index.search(query, k)` after the clamp
`k = min(k, self.index.ntotal)`: the `k` stored rows with smallest squared
distance, ascending, insertion order on ties. -/
noncomputable def knnHits (st : SimilaritySearch) (qn : List ℝ) (k : ℕ) :
    List (ℕ × ℝ) :=
  (List.insertionSort knnLe (scoredOf st qn)).take (min k st.vectors.length)

/-- `SimilaritySearch.search`: raise `ValueError` on a query of the wrong
dimension; otherwise normalize the query, run the faiss scan, map the hit
indices through `model_ids`, and convert each reported value `d` (a
**squared** distance) via `similarities = [max(0, 1 - (d**2 / 4)) for d in
result_distances]`. -/
noncomputable def SimilaritySearch.search (st : SimilaritySearch)
    (query_vector : List ℝ) (k : ℕ) : Except SearchErr (List ℤ × List ℝ) :=
  if query_vector.length ≠ st.dimension then .error .dimensionMismatch
  else
    let hits := knnHits st (normalize_vectors query_vector) k
    .ok (hits.map (fun p => st.model_ids.getD p.1 0),
         hits.map (fun p => max 0 (1 - p.2 ^ 2 / 4)))

/-- `SimilaritySearch.rebuild_index`: `_initialize_index()` (fresh empty
backing store of the same dimension), `model_ids = []`, then `add_vectors`
(whose `ValueError`, if any, is raised after the clearing). -/
noncomputable def SimilaritySearch.rebuild_index (st : SimilaritySearch)
    (rows : List (List ℝ)) (ids : List ℤ) : SimilaritySearch × Option SearchErr :=
  SimilaritySearch.add_vectors
    { st with vectors := [], model_ids := [] } rows ids

/-- Outcome of the external file I/O performed by `SimilaritySearch.load`:
either path missing, `faiss.read_index` raising, `faiss.read_index`
succeeding (yielding the stored rows) but `pickle.load` raising, or both
deserializations succeeding. -/
inductive FileState where
  | missing
  | corruptIndex
  | goodIndexCorruptMeta (vecs : List (List ℝ))
  | good (vecs : List (List ℝ)) (ids : List ℤ) (dim : ℕ)

/-- Error escaping `SimilaritySearch.load` when a deserialization raises. -/
inductive LoadErr where
  | deserialization
deriving DecidableEq

/-- `SimilaritySearch.load`: return untouched when a path is missing;
otherwise `self.index = faiss.read_index(index_path)` **first**, then read
`model_ids` and `dimension` from the unpickled metadata.  A metadata failure
therefore leaves the already-assigned index in place. -/
def SimilaritySearch.load (st : SimilaritySearch) (fs : FileState) :
    SimilaritySearch × Option LoadErr :=
  match fs with
  | .missing => (st, none)
  | .corruptIndex => (st, some .deserialization)
  | .goodIndexCorruptMeta vecs => ({ st with vectors := vecs }, some .deserialization)
  | .good vecs ids dim => ({ dimension := dim, vectors := vecs, model_ids := ids }, none)

/-- `SimilaritySearch.save`: serialize the faiss index and the metadata
(`model_ids` and `dimension`). -/
def SimilaritySearch.save (st : SimilaritySearch) : FileState :=
  .good st.vectors st.model_ids st.dimension

/-- The co-indexing invariant of §4.3: `model_ids` and the backing store hold
the same number of entries. -/
def SimilaritySearch.Wf (st : SimilaritySearch) : Prop :=
  st.model_ids.length = st.vectors.length

/-- The slice of a `Model3D` database row that `IndexManager.rebuild_index`
reads. -/
structure Model3D where
  id : ℤ
  feature_vector : Option (List ℝ)

/-- Python truthiness of `model.feature_vector`: `None` and the empty list
are falsy. -/
def truthyVec : Option (List ℝ) → Bool
  | none => false
  | some v => !v.isEmpty

/-- `IndexManager.rebuild_index`: query all models; **return early** (leaving
the engine untouched) when there are no models or no model carries a truthy
feature vector; otherwise rebuild the engine from the collected vectors and
ids.  (`_save_index` swallows its own errors and does not change the
in-memory engine.) -/
noncomputable def IndexManager.rebuild_index (engine : SimilaritySearch)
    (models : List Model3D) : SimilaritySearch × Option SearchErr :=
  if models.isEmpty then (engine, none)
  else
    let kept := models.filter (fun m => truthyVec m.feature_vector)
    let vecs := kept.map (fun m => m.feature_vector.getD [])
    let ids := kept.map (fun m => m.id)
    if vecs.isEmpty then (engine, none)
    else engine.rebuild_index vecs ids

/-- `IndexManager.initialize`: build a fresh `SimilaritySearch(dimension=83)`
and try `load`; any exception is caught and logged ("Starting with empty
index"), keeping whatever state `load` left behind.  Always returns. -/
def IndexManager.init_manager (fs : FileState) : SimilaritySearch :=
  ((SimilaritySearch.init 83).load fs).1

/-- The index of the end-to-end scenario: ids `1, 2, 3` inserted in order,
vectors `[1,0]`, `[1,0]`, `[0,1]` (vector 1 and 2 identical unit vectors,
vector 3 a unit vector orthogonal to both) in an index of dimension 2. -/
noncomputable def c1State : SimilaritySearch :=
  ((((SimilaritySearch.init 2).add_vectors [[1, 0]] [1]).1.add_vectors
      [[1, 0]] [2]).1.add_vectors [[0, 1]] [3]).1

/-- A concrete index holding one entry, used to exercise the rebuild guard
and the wrong-dimension insert. -/
def c2State : SimilaritySearch :=
  { dimension := 2, vectors := [[1, 0]], model_ids := [7] }

/- ----- geometry: meshes (mesh_processor.py) ----- -/

/-- A 3-D point/vector (one row of `mesh.vertices`). -/
abbrev Pt := ℝ × ℝ × ℝ

def padd (p q : Pt) : Pt := (p.1 + q.1, p.2.1 + q.2.1, p.2.2 + q.2.2)

def psub (p q : Pt) : Pt := (p.1 - q.1, p.2.1 - q.2.1, p.2.2 - q.2.2)

def psmul (c : ℝ) (p : Pt) : Pt := (c * p.1, c * p.2.1, c * p.2.2)

def pdot (p q : Pt) : ℝ := p.1 * q.1 + p.2.1 * q.2.1 + p.2.2 * q.2.2

/-- `np.cross` of two 3-vectors. -/
def pcross (p q : Pt) : Pt :=
  (p.2.1 * q.2.2 - p.2.2 * q.2.1,
   p.2.2 * q.1 - p.1 * q.2.2,
   p.1 * q.2.1 - p.2.1 * q.1)

/-- `np.linalg.norm` of a 3-vector. -/
noncomputable def pnorm (p : Pt) : ℝ := Real.sqrt (pdot p p)

def sumPts (l : List Pt) : Pt := l.foldr padd (0, 0, 0)

/-- `np.mean(axis=0)` of a list of points. -/
noncomputable def meanPts (l : List Pt) : Pt :=
  psmul ((l.length : ℝ))⁻¹ (sumPts l)

/-- A triangular mesh: ordered vertex positions and faces of vertex-index
triples (`trimesh.Trimesh(vertices, faces)`). -/
structure Mesh where
  vertices : List Pt
  faces : List (ℕ × ℕ × ℕ)

/-- `mesh.vertices[i]`.  Out-of-range indices (which numpy would reject) are
mapped to the origin; theorems needing faithfulness restrict to in-range
faces via `FacesInRange`. -/
def vtx (m : Mesh) (i : ℕ) : Pt := m.vertices.getD i (0, 0, 0)

/-- Every face index addresses a vertex — the §3 data-model invariant. -/
def FacesInRange (m : Mesh) : Prop :=
  ∀ f ∈ m.faces, f.1 < m.vertices.length ∧ f.2.1 < m.vertices.length ∧
    f.2.2 < m.vertices.length

/-- Centroid of one triangle (a row of `trimesh.Trimesh.triangles_center`). -/
noncomputable def faceCenter (m : Mesh) (f : ℕ × ℕ × ℕ) : Pt :=
  psmul (3 : ℝ)⁻¹ (padd (vtx m f.1) (padd (vtx m f.2.1) (vtx m f.2.2)))

/-- Area of one triangle (a row of `trimesh.Trimesh.area_faces`): half the
norm of the cross product of two edge vectors. -/
noncomputable def faceArea (m : Mesh) (f : ℕ × ℕ × ℕ) : ℝ :=
  pnorm (pcross (psub (vtx m f.2.1) (vtx m f.1))
                (psub (vtx m f.2.2) (vtx m f.1))) / 2

/-- `mesh.area`: the summed face areas. -/
noncomputable def totalArea (m : Mesh) : ℝ := (m.faces.map (faceArea m)).sum

/-- `trimesh.Trimesh.centroid`: "the average of the triangle centroids
weighted by the area of each triangle"
(`np.average(self.triangles_center, weights=self.area_faces, axis=0)`);
when the weights sum to zero `np.average` raises and trimesh falls back to
the unweighted mean of the triangle centroids.  It is **not** the mean of
the vertex positions. -/
noncomputable def trimeshCentroid (m : Mesh) : Pt :=
  if totalArea m = 0 then meanPts (m.faces.map (faceCenter m))
  else
    psmul (totalArea m)⁻¹
      (sumPts (m.faces.map (fun f => psmul (faceArea m f) (faceCenter m f))))

/-- `np.max(np.linalg.norm(vertices, axis=1))`; the fold is seeded with `0`,
which no norm is below. -/
noncomputable def maxNorm (l : List Pt) : ℝ := (l.map pnorm).foldr max 0

/-- `MeshProcessor._normalize_trimesh`: `mesh.vertices -= mesh.centroid`
(the area-weighted trimesh centroid), then `mesh.vertices /= max_distance`
when the maximum vertex distance from the origin is positive. -/
noncomputable def normalize_trimesh (m : Mesh) : Mesh :=
  let c := trimeshCentroid m
  let centered := m.vertices.map (fun v => psub v c)
  let max_distance := maxNorm centered
  if 0 < max_distance
  then { vertices := centered.map (psmul max_distance⁻¹), faces := m.faces }
  else { vertices := centered, faces := m.faces }

/-- `MeshProcessor._normalize_open3d`: Open3D's `get_center` is the
unweighted mean of the vertices; subtract it, then scale by the maximum
vertex distance when positive.  (Note the discrepancy with
`_normalize_trimesh`, which subtracts the area-weighted centroid.) -/
noncomputable def normalize_open3d (m : Mesh) : Mesh :=
  let c := meanPts m.vertices
  let centered := m.vertices.map (fun v => psub v c)
  let max_distance := maxNorm centered
  if 0 < max_distance
  then { vertices := centered.map (psmul max_distance⁻¹), faces := m.faces }
  else { vertices := centered, faces := m.faces }

/-- Result of the external call `trimesh.load(file_path, force="mesh")`:
a `Trimesh`, a `Scene` holding a list of geometries, some other object, or
an exception (malformed file, unsupported format, empty geometry, ...). -/
inductive ParseResult where
  | trimeshMesh (m : Mesh)
  | scene (gs : List Mesh)
  | other
  | raises

/-- Modelled from the spec: the §7 error taxonomy names `LoadError` and
`GeometryError` for the mesh loader, but the source defines no such
exception classes — this type exists only so the claimed error behaviour
can be stated against the code. -/
inductive MeshError where
  | loadError
  | geometryError
deriving DecidableEq

/-- `trimesh.util.concatenate` over scene geometries: vertices appended,
faces offset by the vertex count accumulated so far. -/
def concatMeshes (gs : List Mesh) : Mesh :=
  gs.foldl
    (fun acc g =>
      { vertices := acc.vertices ++ g.vertices,
        faces := acc.faces ++ g.faces.map
          (fun f => (f.1 + acc.vertices.length, f.2.1 + acc.vertices.length,
                     f.2.2 + acc.vertices.length)) })
    { vertices := [], faces := [] }

/-- `MeshProcessor._trimesh_to_open3d`: copies vertices and faces into an
Open3D mesh and computes vertex normals; structurally the same mesh in this
model. -/
def trimesh_to_open3d (m : Mesh) : Mesh := m

/-- `MeshProcessor.load_mesh`: everything runs inside one `try`; any
exception — a parse failure, a load result that is neither mesh nor scene
(the explicit `raise ValueError`), or an empty scene — is caught, logged,
and the method **returns** `(None, None)`.  No error is ever raised to the
caller, and no zero-face check exists anywhere in the method. -/
noncomputable def load_mesh (normalize : Bool) (pr : ParseResult) :
    Except MeshError (Option Mesh × Option Mesh) :=
  match pr with
  | .raises => .ok (none, none)
  | .other => .ok (none, none)
  | .scene [] => .ok (none, none)
  | .scene (g :: gs) =>
      let m := concatMeshes (g :: gs)
      if normalize
      then .ok (some (normalize_trimesh m),
                some (normalize_open3d (trimesh_to_open3d m)))
      else .ok (some m, some (trimesh_to_open3d m))
  | .trimeshMesh m =>
      if normalize
      then .ok (some (normalize_trimesh m),
                some (normalize_open3d (trimesh_to_open3d m)))
      else .ok (some m, some (trimesh_to_open3d m))

/-- Modelled from the spec (claim C6's wording): the "simple vertex-position
centroid (the mean of the vertex positions)" the claim says `normalize`
subtracts. -/
noncomputable def specVertexCentroid (m : Mesh) : Pt := meanPts m.vertices

/-- Two coplanar triangles of areas 2 and 6: the area-weighted trimesh
centroid `(8/3, 2/3, 0)` differs from the vertex mean `(5/2, 1/2, 0)`. -/
def c6Mesh : Mesh :=
  { vertices := [(0, 0, 0), (2, 0, 0), (0, 2, 0), (8, 0, 0)],
    faces := [(0, 1, 2), (1, 3, 2)] }

/-- A single triangle with 3 vertices and 1 face, used to instantiate
hypotheses concretely. -/
def c4Mesh : Mesh :=
  { vertices := [(0, 0, 0), (2, 0, 0), (0, 2, 0)], faces := [(0, 1, 2)] }

/- ----- feature extraction (feature_extractor.py) ----- -/

/-- `np.min` of a list (numpy raises on empty input; the `0` branch is only
reached for empty data). -/
def listMin : List ℝ → ℝ
  | [] => 0
  | x :: xs => xs.foldr min x

/-- `np.max` of a list. -/
def listMax : List ℝ → ℝ
  | [] => 0
  | x :: xs => xs.foldr max x

/-- `np.histogram(data, bins=64, density=True)`: 64 equal-width bins
spanning `[min data, max data]` (numpy widens a degenerate range by 0.5 on
each side); bin `i` counts the data in `[lo + i*w, lo + (i+1)*w)`, the last
bin also including its right edge; `density=True` divides each count by
`len(data) * w`. -/
noncomputable def histogram64 (data : List ℝ) : List ℝ :=
  let lo := listMin data
  let hi := listMax data
  let lo2 := if lo = hi then lo - 0.5 else lo
  let hi2 := if lo = hi then hi + 0.5 else hi
  let w := (hi2 - lo2) / 64
  (List.range 64).map (fun i : ℕ =>
    ((data.countP (fun d =>
        decide (lo2 + (i : ℝ) * w ≤ d) &&
          (decide (d < lo2 + ((i : ℝ) + 1) * w) ||
            (decide (i = 63) && decide (d ≤ hi2))))) : ℝ) /
      (data.length * w))

/-- `FeatureExtractor._compute_d2_descriptor`: the surface samples
(`trimesh.sample.sample_surface`) and the random pair indices
(`np.random.randint`) come from ambient randomness and are inputs of the
model; the descriptor is the density histogram of the pairwise distances,
re-normalized by its own sum plus `1e-10`. -/
noncomputable def compute_d2_descriptor (points : List Pt)
    (idx1 idx2 : List ℕ) : List ℝ :=
  let distances := List.zipWith
    (fun i j => pnorm (psub (points.getD i (0, 0, 0)) (points.getD j (0, 0, 0))))
    idx1 idx2
  let hist := histogram64 distances
  hist.map (fun h => h / (hist.sum + 1e-10))

/-- The sorted undirected edge list trimesh derives from the faces
(`edges_sorted`): three edges per face, each as an ordered pair. -/
def edgesSorted (m : Mesh) : List (ℕ × ℕ) :=
  (m.faces.map (fun f =>
    [(min f.1 f.2.1, max f.1 f.2.1), (min f.2.1 f.2.2, max f.2.1 f.2.2),
     (min f.2.2 f.1, max f.2.2 f.1)])).flatten

/-- `trimesh.Trimesh.is_watertight`: every undirected edge is contained in
exactly two faces. -/
def is_watertight (m : Mesh) : Bool :=
  (edgesSorted m).all (fun e => (edgesSorted m).count e = 2)

/-- `trimesh.Trimesh.volume` (from `mass_properties`): the summed signed
tetrahedron volumes `dot(a, cross(b, c)) / 6` over the faces; meaningful
only for a watertight mesh. -/
noncomputable def meshVolume (m : Mesh) : ℝ :=
  (m.faces.map (fun f =>
    pdot (vtx m f.1) (pcross (vtx m f.2.1) (vtx m f.2.2)) / 6)).sum

/-- `mesh.extents`: componentwise `max - min` of the vertex coordinates
(`mesh.bounds[1] - mesh.bounds[0]`). -/
noncomputable def extents (m : Mesh) : Pt :=
  (listMax (m.vertices.map (fun p => p.1)) - listMin (m.vertices.map (fun p => p.1)),
   listMax (m.vertices.map (fun p => p.2.1)) - listMin (m.vertices.map (fun p => p.2.1)),
   listMax (m.vertices.map (fun p => p.2.2)) - listMin (m.vertices.map (fun p => p.2.2)))

/-- `FeatureExtractor._compute_basic_features`:
`[log10(volume + 1e-10), log10(area + 1e-10), compactness,
log10(aspect + 1), log10(edge_density + 1)]`, with `volume = 0` for a
non-watertight mesh, compactness `(36·π·V²)^(1/3)/A` only for a watertight
mesh of positive volume, aspect `max(extents)/min(extents)` only when
`min(extents) > 0` (else `1`), and
`edge_density = len(mesh.edges)/(len(vertices)+1)` where `mesh.edges` holds
three directed edges per face. -/
noncomputable def compute_basic_features (m : Mesh) : List ℝ :=
  let volume := if is_watertight m then meshVolume m else 0
  let compactness :=
    if is_watertight m ∧ 0 < volume
    then (36 * Real.pi * volume ^ 2) ^ ((1 : ℝ) / 3) / totalArea m
    else 0
  let e := extents m
  let aspect :=
    if 0 < min e.1 (min e.2.1 e.2.2)
    then max e.1 (max e.2.1 e.2.2) / min e.1 (min e.2.1 e.2.2)
    else 1
  let edge_density := (3 * m.faces.length : ℝ) / (m.vertices.length + 1)
  [Real.logb 10 (volume + 1e-10), Real.logb 10 (totalArea m + 1e-10),
   compactness, Real.logb 10 (aspect + 1), Real.logb 10 (edge_density + 1)]

/-- `FeatureExtractor._compute_bbox_features`: `extents += 1e-10`, then the
quotients `extents[0]/extents[1]`, `extents[1]/extents[2]`,
`extents[0]/extents[2]`. -/
noncomputable def compute_bbox_features (m : Mesh) : List ℝ :=
  let e1 := (extents m).1 + 1e-10
  let e2 := (extents m).2.1 + 1e-10
  let e3 := (extents m).2.2 + 1e-10
  [e1 / e2, e2 / e3, e1 / e3]

/-- `FeatureExtractor._compute_convexity`: the convex hull is produced by an
external library (`trimesh`/qhull), so its volume enters the model as an
oracle input; a non-watertight mesh yields the documented default `0.5`, a
positive hull volume yields `np.clip(volume/hull_volume, 0, 1)`, otherwise
`1.0`. -/
noncomputable def compute_convexity (m : Mesh) (hullVolume : ℝ) : ℝ :=
  if !is_watertight m then 0.5
  else if 0 < hullVolume then min 1 (max 0 (meshVolume m / hullVolume))
  else 1

/-- `np.mean` of a real list. -/
noncomputable def listMean (l : List ℝ) : ℝ := l.sum / l.length

/-- `np.std`: root of the mean squared deviation from the mean. -/
noncomputable def listStd (l : List ℝ) : ℝ :=
  Real.sqrt (listMean (l.map (fun x => (x - listMean l) ^ 2)))

/-- `points[:, axis]` projection. -/
def axisProj : Fin 3 → Pt → ℝ
  | 0 => fun p => p.1
  | 1 => fun p => p.2.1
  | 2 => fun p => p.2.2

/-- `np.cov(points.T)`: the 3×3 sample covariance matrix (denominator
`n - 1`). -/
noncomputable def covMatrix (pts : List Pt) : Matrix (Fin 3) (Fin 3) ℝ :=
  fun i j =>
    (pts.map (fun p => (axisProj i p - listMean (pts.map (axisProj i))) *
        (axisProj j p - listMean (pts.map (axisProj j))))).sum /
      ((pts.length : ℝ) - 1)

/-- The symmetric matrix `np.linalg.eigvalsh` actually reads: LAPACK's
`syevd` with the default `UPLO='L'` sees only the lower triangle. -/
noncomputable def symLower (A : Matrix (Fin 3) (Fin 3) ℝ) :
    Matrix (Fin 3) (Fin 3) ℝ :=
  fun i j => if (j : ℕ) ≤ (i : ℕ) then A i j else A j i

/-- `np.linalg.eigvalsh`: the real eigenvalues of the symmetric matrix built
from the lower triangle, via Mathlib's spectral theorem. -/
noncomputable def eigvalsh3 (A : Matrix (Fin 3) (Fin 3) ℝ) : List ℝ :=
  (List.finRange 3).map
    (Matrix.IsHermitian.eigenvalues (A := symLower A) (by
      ext i j
      simp only [Matrix.conjTranspose_apply, star_trivial, symLower]
      by_cases h : (i : ℕ) ≤ (j : ℕ)
      · by_cases h2 : (j : ℕ) ≤ (i : ℕ)
        · have hij : i = j := Fin.ext (le_antisymm h h2)
          subst hij
          simp
        · rw [if_pos h, if_neg h2]
      · by_cases h2 : (j : ℕ) ≤ (i : ℕ)
        · rw [if_neg h, if_pos h2]
        · omega))

/-- `np.sort(eigenvalues)[::-1]`: descending sort. -/
noncomputable def sortDesc (l : List ℝ) : List ℝ :=
  List.insertionSort (fun a b => b ≤ a) l

/-- `FeatureExtractor._compute_moments`: the sampled surface points are an
injected input; center them on their own mean, take per-axis mean and
standard deviation, then the descending-sorted eigenvalues of the sample
covariance normalized by their sum plus `1e-10`, then the covariance trace;
`moments[:10]` keeps exactly the first 10 values. -/
noncomputable def compute_moments (pts : List Pt) : List ℝ :=
  let centered := pts.map (fun p => psub p (meanPts pts))
  let ax := fun i : Fin 3 => centered.map (axisProj i)
  let moments6 := [listMean (ax 0), listStd (ax 0), listMean (ax 1),
                   listStd (ax 1), listMean (ax 2), listStd (ax 2)]
  let cov := covMatrix centered
  let eigs := sortDesc (eigvalsh3 cov)
  let eigsN := eigs.map (fun x => x / (eigs.sum + 1e-10))
  ((moments6 ++ eigsN) ++ [Matrix.trace cov]).take 10

/-- The 83-value concatenation built by `FeatureExtractor.extract_features`
before normalization: D2 histogram (64), basic statistics (5), bounding-box
quotients (3), convexity (1), moments (10). -/
noncomputable def rawFeatures (m : Mesh) (d2pts : List Pt) (idx1 idx2 : List ℕ)
    (mpts : List Pt) (hullVolume : ℝ) : List ℝ :=
  compute_d2_descriptor d2pts idx1 idx2 ++ compute_basic_features m ++
    compute_bbox_features m ++ [compute_convexity m hullVolume] ++
    compute_moments mpts

/-- `FeatureExtractor.extract_features`: concatenate the five feature groups
and L2-normalize the whole vector (`sklearn.preprocessing.normalize`, whose
zero-norm guard matches `normalize_vectors`).  The surface samples, pair
indices and hull volume are external/random inputs of the model; the
float32 cast is not modelled. -/
noncomputable def extract_features (m : Mesh) (d2pts : List Pt)
    (idx1 idx2 : List ℕ) (mpts : List Pt) (hullVolume : ℝ) : List ℝ :=
  normalize_vectors (rawFeatures m d2pts idx1 idx2 mpts hullVolume)

/- ===================== THEOREMS ===================== -/

theorem sumSq_nonneg (v : List ℝ) : 0 ≤ sumSq v := by
  induction v with
  | nil => simp [sumSq]
  | cons x xs ih =>
    have hx := mul_self_nonneg x
    simp only [sumSq, List.map_cons, List.sum_cons] at ih ⊢
    linarith

theorem sqDist_nonneg (q v : List ℝ) : 0 ≤ sqDist q v := by
  unfold sqDist
  induction q.zip v with
  | nil => simp
  | cons p ps ih =>
    have := mul_self_nonneg (p.1 - p.2)
    simp only [List.map_cons, List.sum_cons]
    linarith

theorem l2norm_nonneg (v : List ℝ) : 0 ≤ l2norm v := Real.sqrt_nonneg _

theorem sumSq_map_div (v : List ℝ) (c : ℝ) :
    sumSq (v.map (fun x => x / c)) = sumSq v / (c * c) := by
  induction v with
  | nil => simp [sumSq]
  | cons x xs ih =>
    simp only [sumSq, List.map_cons, List.sum_cons] at ih ⊢
    rw [ih, div_mul_div_comm, div_add_div_same]

theorem length_normalize_vectors (v : List ℝ) :
    (normalize_vectors v).length = v.length := by
  simp [normalize_vectors]

theorem l2norm_normalize_vectors (v : List ℝ) (h : l2norm v ≠ 0) :
    l2norm (normalize_vectors v) = 1 := by
  have hpos : 0 < l2norm v := lt_of_le_of_ne (l2norm_nonneg v) (Ne.symm h)
  have hv : normalize_vectors v = v.map (fun x => x / l2norm v) := by
    simp [normalize_vectors, if_neg h]
  rw [hv]
  unfold l2norm at *
  have hs : 0 < sumSq v := Real.sqrt_pos.mp hpos
  rw [sumSq_map_div]
  have hsq : Real.sqrt (sumSq v) * Real.sqrt (sumSq v) = sumSq v :=
    Real.mul_self_sqrt (sumSq_nonneg v)
  rw [hsq, div_self hs.ne', Real.sqrt_one]

theorem mem_scoredOf_nonneg {st : SimilaritySearch} {qn : List ℝ} {p : ℕ × ℝ}
    (h : p ∈ scoredOf st qn) : 0 ≤ p.2 := by
  rcases List.mem_map.mp h with ⟨a, _, rfl⟩
  exact sqDist_nonneg _ _

theorem knnHits_length (st : SimilaritySearch) (qn : List ℝ) (k : ℕ) :
    (knnHits st qn k).length = min k st.vectors.length := by
  simp only [knnHits, List.length_take, List.length_insertionSort, scoredOf,
    List.length_map, List.enum_length]
  omega

theorem knnHits_sorted (st : SimilaritySearch) (qn : List ℝ) (k : ℕ) :
    List.Sorted knnLe (knnHits st qn k) :=
  (List.sorted_insertionSort knnLe (scoredOf st qn)).sublist
    (List.take_sublist _ _)

theorem mem_knnHits {st : SimilaritySearch} {qn : List ℝ} {k : ℕ} {p : ℕ × ℝ}
    (h : p ∈ knnHits st qn k) : p ∈ scoredOf st qn :=
  (List.perm_insertionSort knnLe (scoredOf st qn)).subset (List.take_subset _ _ h)

/-- Claim C5 (confirmed): for every index state, every query vector of the
index's dimension and every `k`, `search` succeeds and returns at most
`min(k, entry count)` hits, with the similarity list sorted descending and
every similarity score in `[0, 1]`. -/
theorem search_hits_sorted_bounded (st : SimilaritySearch) (q : List ℝ) (k : ℕ)
    (hq : q.length = st.dimension) :
    ∃ ids sims, st.search q k = .ok (ids, sims) ∧
      ids.length ≤ min k st.vectors.length ∧
      sims.length = ids.length ∧
      sims.Sorted (fun a b => a ≥ b) ∧
      (∀ s ∈ sims, 0 ≤ s ∧ s ≤ 1) := by
  have hs : st.search q k =
      .ok ((knnHits st (normalize_vectors q) k).map (fun p => st.model_ids.getD p.1 0),
           (knnHits st (normalize_vectors q) k).map (fun p => max 0 (1 - p.2 ^ 2 / 4))) := by
    simp [SimilaritySearch.search, hq]
  refine ⟨_, _, hs, ?_, ?_, ?_, ?_⟩
  · rw [List.length_map, knnHits_length]
  · simp
  · rw [List.Sorted, List.pairwise_map]
    refine (knnHits_sorted st (normalize_vectors q) k).imp_of_mem ?_
    intro a b ha hb hr
    have ha0 : 0 ≤ a.2 := mem_scoredOf_nonneg (mem_knnHits ha)
    have hab : a.2 ≤ b.2 := by
      rcases hr with h | ⟨h, _⟩
      · exact le_of_lt h
      · exact le_of_eq h
    have hsq : a.2 ^ 2 ≤ b.2 ^ 2 := pow_le_pow_left₀ ha0 hab 2
    exact max_le_max le_rfl (by linarith)
  · intro s hsmem
    rcases List.mem_map.mp hsmem with ⟨p, _, rfl⟩
    refine ⟨le_max_left _ _, max_le (by norm_num) ?_⟩
    have : 0 ≤ p.2 ^ 2 / 4 := by positivity
    linarith

theorem search_hits_sorted_bounded_spot :
    ∃ ids sims, (SimilaritySearch.init 1).search [0] 0 = .ok (ids, sims) ∧
      ids.length ≤ min 0 (SimilaritySearch.init 1).vectors.length ∧
      sims.length = ids.length ∧
      sims.Sorted (fun a b => a ≥ b) ∧
      (∀ s ∈ sims, 0 ≤ s ∧ s ≤ 1) :=
  search_hits_sorted_bounded (SimilaritySearch.init 1) [0] 0 rfl

/-- Claim C10 (confirmed): the vector-normalization step shared by insert and
search is total; a vector of zero L2 norm is returned unchanged (the
`norms[norms == 0] = 1` guard), and a vector of nonzero norm is divided by
its norm. -/
theorem normalize_vectors_total (v : List ℝ) :
    (l2norm v = 0 → normalize_vectors v = v) ∧
    (l2norm v ≠ 0 → normalize_vectors v = v.map (fun x => x / l2norm v)) := by
  constructor
  · intro h
    simp [normalize_vectors, h]
  · intro h
    simp [normalize_vectors, h]

theorem normalize_vectors_total_spot : normalize_vectors [(0 : ℝ), 0] = [0, 0] :=
  (normalize_vectors_total [0, 0]).1 (by simp [l2norm, sumSq])

/-- Claim C7 (confirmed): inserting rows whose dimension differs from the
index dimension fails with the dimension-mismatch error and leaves the index
state (vectors, model ids, count) exactly as it was. -/
theorem add_vectors_dimension_mismatch (st : SimilaritySearch)
    (rows : List (List ℝ)) (ids : List ℤ) (h : shape1 rows ≠ st.dimension) :
    st.add_vectors rows ids = (st, some SearchErr.dimensionMismatch) := by
  simp [SimilaritySearch.add_vectors, h]

theorem add_vectors_dimension_mismatch_spot :
    c2State.add_vectors [[(1 : ℝ)]] [5] = (c2State, some SearchErr.dimensionMismatch) :=
  add_vectors_dimension_mismatch c2State [[(1 : ℝ)]] [5]
    (by simp [shape1, c2State])

/-- Claim C2 (amended): `IndexManager.rebuild_index` with an empty catalog
snapshot (no models, or none carrying a truthy feature vector) returns
early and leaves the engine exactly as it was; in particular only an engine
that was already empty has count 0 afterwards, and on an empty engine every
well-dimensioned search returns no hits. -/
theorem manager_rebuild_empty_catalog (engine : SimilaritySearch)
    (models : List Model3D) (k : ℕ)
    (h : models.filter (fun m => truthyVec m.feature_vector) = []) :
    IndexManager.rebuild_index engine models = (engine, none) ∧
      (engine.vectors = [] → ∀ q : List ℝ, q.length = engine.dimension →
        engine.search q k = .ok ([], [])) := by
  constructor
  · cases models with
    | nil => simp [IndexManager.rebuild_index]
    | cons m ms => simp [IndexManager.rebuild_index, h]
  · intro he q hq
    simp [SimilaritySearch.search, hq, knnHits, scoredOf, he, List.insertionSort]

theorem manager_rebuild_empty_catalog_spot :
    IndexManager.rebuild_index (SimilaritySearch.init 1) [] =
        (SimilaritySearch.init 1, none) ∧
      ((SimilaritySearch.init 1).vectors = [] →
        ∀ q : List ℝ, q.length = (SimilaritySearch.init 1).dimension →
          (SimilaritySearch.init 1).search q 0 = .ok ([], [])) :=
  manager_rebuild_empty_catalog (SimilaritySearch.init 1) [] 0 rfl

/-- Claim C2 counterexample: on an engine holding one entry, a rebuild with an
empty catalog does **not** yield entry count 0 — the engine is left
untouched by the early return. -/
theorem manager_rebuild_empty_catalog_cex :
    (IndexManager.rebuild_index c2State []).1.vectors.length ≠ 0 := by
  simp [IndexManager.rebuild_index, c2State]

theorem wf_add_vectors (st : SimilaritySearch) (rows : List (List ℝ))
    (ids : List ℤ) (hst : st.Wf) (hlen : rows.length = ids.length) :
    (st.add_vectors rows ids).1.Wf := by
  unfold SimilaritySearch.add_vectors
  split
  · exact hst
  · simp only [SimilaritySearch.Wf, List.length_append, List.length_map] at hst ⊢
    omega

/-- Claim C8 (amended): the identifier list and the vector store have equal
length in a fresh index, and this invariant is preserved by `add_vectors`
and `rebuild_index` whenever as many ids as rows are supplied, by a `load`
that finds no files or whose index blob fails to deserialize, by a
persist/restore round trip, and by a fully successful `load` whose metadata
carries as many ids as the index blob carries rows.  (`search` does not
mutate the state at all in this model.) -/
theorem index_coindexed_invariant :
    (∀ d : ℕ, (SimilaritySearch.init d).Wf) ∧
    (∀ (st : SimilaritySearch) (rows : List (List ℝ)) (ids : List ℤ),
      st.Wf → rows.length = ids.length → (st.add_vectors rows ids).1.Wf) ∧
    (∀ (st : SimilaritySearch) (rows : List (List ℝ)) (ids : List ℤ),
      rows.length = ids.length → (st.rebuild_index rows ids).1.Wf) ∧
    (∀ st : SimilaritySearch, st.Wf →
      (st.load .missing).1.Wf ∧ (st.load .corruptIndex).1.Wf ∧
        (st.load st.save).1.Wf) ∧
    (∀ (st : SimilaritySearch) (vecs : List (List ℝ)) (ids : List ℤ) (d : ℕ),
      ids.length = vecs.length → (st.load (.good vecs ids d)).1.Wf) := by
  refine ⟨?_, wf_add_vectors, ?_, ?_, ?_⟩
  · intro d; rfl
  · intro st rows ids hlen
    exact wf_add_vectors _ rows ids rfl hlen
  · intro st hst
    exact ⟨hst, hst, hst⟩
  · intro st vecs ids d h
    exact h

theorem index_coindexed_invariant_spot :
    (SimilaritySearch.init 3).Wf ∧
      ((SimilaritySearch.init 1).add_vectors [[1]] [5]).1.Wf :=
  ⟨index_coindexed_invariant.1 3,
   index_coindexed_invariant.2.1 (SimilaritySearch.init 1) [[1]] [5] rfl rfl⟩

/-- Claim C8 counterexample: a restore whose index blob deserializes but
whose metadata blob fails breaks the co-indexing invariant — the index ends
up with one stored vector and zero identifiers. -/
theorem index_coindexed_invariant_cex :
    ¬ ((SimilaritySearch.init 2).load (.goodIndexCorruptMeta [[1, 0]])).1.Wf := by
  simp [SimilaritySearch.load, SimilaritySearch.init, SimilaritySearch.Wf]

/-- Claim C9 (code bug evaluation): `IndexManager.initialize` on a source
whose index blob holds one vector but whose metadata blob is corrupt
returns normally yet leaves the engine **non-empty** (one stored vector,
no model ids), although its own log message claims to be "Starting with
empty index". -/
theorem initialize_keeps_vectors_on_corrupt_metadata :
    (IndexManager.init_manager (.goodIndexCorruptMeta [[1, 0]])).vectors.length = 1 ∧
      (IndexManager.init_manager (.goodIndexCorruptMeta [[1, 0]])).model_ids = [] := by
  constructor <;> rfl

theorem normalize_vectors_unit10 : normalize_vectors [(1 : ℝ), 0] = [1, 0] := by
  have h : l2norm [(1 : ℝ), 0] = 1 := by simp [l2norm, sumSq]
  simp [normalize_vectors, h]

theorem normalize_vectors_unit01 : normalize_vectors [(0 : ℝ), 1] = [0, 1] := by
  have h : l2norm [(0 : ℝ), 1] = 1 := by simp [l2norm, sumSq]
  simp [normalize_vectors, h]

theorem c1State_eq :
    c1State = { dimension := 2, vectors := [[1, 0], [1, 0], [0, 1]],
                model_ids := [1, 2, 3] } := by
  simp [c1State, SimilaritySearch.add_vectors, SimilaritySearch.init, shape1,
    normalize_vectors_unit10, normalize_vectors_unit01]

/-- Claim C1 (code bug evaluation): on the end-to-end scenario index
(identical unit vectors for ids 1 and 2, an orthogonal unit vector for
id 3), `search(vector1, k=3)` returns ids `[1, 2, 3]` with similarities
`[1, 1, 0]` — the orthogonal hit scores `0`, not the `0.5` the claim
states, because `max(0, 1 - d**2/4)` is applied to `d` values that faiss
already reports as squared distances. -/
theorem search_similarity_double_squared :
    c1State.search [1, 0] 3 = .ok ([1, 2, 3], [1, 1, 0]) := by
  rw [c1State_eq]
  simp only [SimilaritySearch.search]
  rw [if_neg (by norm_num)]
  simp only [knnHits, scoredOf, normalize_vectors_unit10]
  norm_num [List.enum, List.enumFrom, sqDist, List.insertionSort,
    List.orderedInsert, knnLe, max_def]

/-- Claim C3 (amended): `load_mesh` never raises: every unparsable input (a
parse exception, or a load result that is neither a mesh nor a usable
scene) yields the ordinary return value `(None, None)` — no `LoadError` —
and a mesh that parses with zero faces is returned as an ordinary value,
there being no zero-face check and no `GeometryError`. -/
theorem load_mesh_returns_none_pair (b : Bool) (pr : ParseResult)
    (h : pr = ParseResult.raises ∨ pr = ParseResult.other) :
    load_mesh b pr = .ok (none, none) ∧
      (∀ m : Mesh, m.faces = [] →
        load_mesh false (.trimeshMesh m) = .ok (some m, some m)) := by
  constructor
  · rcases h with h | h <;> subst h <;> rfl
  · intro m _
    rfl

theorem load_mesh_returns_none_pair_spot :
    load_mesh true ParseResult.raises = .ok (none, none) ∧
      (∀ m : Mesh, m.faces = [] →
        load_mesh false (.trimeshMesh m) = .ok (some m, some m)) :=
  load_mesh_returns_none_pair true ParseResult.raises (Or.inl rfl)

/-- Claim C3 counterexample: on an unparsable input the loader returns the
ordinary value `(None, None)`; it does not fail with `LoadError`. -/
theorem load_mesh_no_loadError :
    load_mesh true ParseResult.raises ≠ Except.error MeshError.loadError ∧
      load_mesh true ParseResult.raises = .ok (none, none) := by
  refine ⟨?_, rfl⟩
  intro h
  rw [show load_mesh true ParseResult.raises = Except.ok (none, none) from rfl] at h
  exact Except.noConfusion h

theorem psmul_psmul (a b : ℝ) (p : Pt) : psmul a (psmul b p) = psmul (a * b) p := by
  obtain ⟨x, y, z⟩ := p
  simp only [psmul, Prod.mk.injEq]
  refine ⟨by ring, by ring, by ring⟩

theorem psmul_psub (k : ℝ) (p q : Pt) :
    psmul k (psub p q) = psub (psmul k p) (psmul k q) := by
  obtain ⟨p1, p2, p3⟩ := p; obtain ⟨q1, q2, q3⟩ := q
  simp only [psmul, psub, Prod.mk.injEq]
  refine ⟨by ring, by ring, by ring⟩

theorem psub_self_pt (p : Pt) : psub p p = ((0 : ℝ), (0 : ℝ), (0 : ℝ)) := by
  obtain ⟨x, y, z⟩ := p
  simp [psub]

theorem psmul_zero_pt (k : ℝ) : psmul k ((0 : ℝ), (0 : ℝ), (0 : ℝ)) = (0, 0, 0) := by
  simp [psmul]

theorem pnorm_smul (a : ℝ) (p : Pt) : pnorm (psmul a p) = |a| * pnorm p := by
  obtain ⟨x, y, z⟩ := p
  simp only [pnorm, pdot, psmul]
  rw [show a * x * (a * x) + a * y * (a * y) + a * z * (a * z)
      = a ^ 2 * (x * x + y * y + z * z) from by ring,
    Real.sqrt_mul (sq_nonneg a), Real.sqrt_sq_eq_abs]

theorem maxNorm_map_smul (a : ℝ) (ha : 0 ≤ a) (l : List Pt) :
    maxNorm (l.map (psmul a)) = a * maxNorm l := by
  induction l with
  | nil => simp [maxNorm]
  | cons x xs ih =>
    simp only [maxNorm, List.map_cons, List.foldr_cons] at ih ⊢
    rw [pnorm_smul, abs_of_nonneg ha, ih, mul_max_of_nonneg _ _ ha]

theorem psub_psmul_affine (s : ℝ) (c a b : Pt) :
    psub (psmul s (psub a c)) (psmul s (psub b c)) = psmul s (psub a b) := by
  obtain ⟨a1, a2, a3⟩ := a; obtain ⟨b1, b2, b3⟩ := b; obtain ⟨c1, c2, c3⟩ := c
  simp only [psub, psmul, Prod.mk.injEq]
  refine ⟨by ring, by ring, by ring⟩

theorem pcross_psmul (s : ℝ) (u v : Pt) :
    pcross (psmul s u) (psmul s v) = psmul (s * s) (pcross u v) := by
  obtain ⟨u1, u2, u3⟩ := u; obtain ⟨v1, v2, v3⟩ := v
  simp only [pcross, psmul, Prod.mk.injEq]
  refine ⟨by ring, by ring, by ring⟩

theorem vtx_map (g : Pt → Pt) (m : Mesh) (F : List (ℕ × ℕ × ℕ)) (i : ℕ)
    (h : i < m.vertices.length) :
    vtx { vertices := m.vertices.map g, faces := F } i = g (vtx m i) := by
  show (m.vertices.map g).getD i (0, 0, 0) = g (m.vertices.getD i (0, 0, 0))
  rw [List.getD_eq_getElem?_getD, List.getD_eq_getElem?_getD,
    List.getElem?_map, List.getElem?_eq_getElem h]
  rfl

theorem center_affine_alg (s : ℝ) (c a b d : Pt) :
    psmul (3 : ℝ)⁻¹ (padd (psmul s (psub a c))
        (padd (psmul s (psub b c)) (psmul s (psub d c))))
      = psmul s (psub (psmul (3 : ℝ)⁻¹ (padd a (padd b d))) c) := by
  obtain ⟨a1, a2, a3⟩ := a; obtain ⟨b1, b2, b3⟩ := b
  obtain ⟨c1, c2, c3⟩ := c; obtain ⟨d1, d2, d3⟩ := d
  simp only [padd, psub, psmul, Prod.mk.injEq]
  refine ⟨by ring, by ring, by ring⟩

theorem sumPts_map_psub {α : Type} (l : List α) (u w : α → Pt) :
    sumPts (l.map (fun x => psub (u x) (w x)))
      = psub (sumPts (l.map u)) (sumPts (l.map w)) := by
  induction l with
  | nil => simp [sumPts, psub]
  | cons x xs ih =>
    simp only [sumPts, List.map_cons, List.foldr_cons] at ih ⊢
    rw [ih]
    obtain ⟨ux, uy, uz⟩ := u x; obtain ⟨wx, wy, wz⟩ := w x
    obtain ⟨sx, sy, sz⟩ := List.foldr padd ((0:ℝ), (0:ℝ), (0:ℝ)) (xs.map u)
    obtain ⟨tx, ty, tz⟩ := List.foldr padd ((0:ℝ), (0:ℝ), (0:ℝ)) (xs.map w)
    simp only [padd, psub, Prod.mk.injEq]
    refine ⟨by ring, by ring, by ring⟩

theorem sumPts_map_psmul {α : Type} (l : List α) (k : ℝ) (h : α → Pt) :
    sumPts (l.map (fun x => psmul k (h x))) = psmul k (sumPts (l.map h)) := by
  induction l with
  | nil => simp [sumPts, psmul]
  | cons x xs ih =>
    simp only [sumPts, List.map_cons, List.foldr_cons] at ih ⊢
    rw [ih]
    obtain ⟨hx, hy, hz⟩ := h x
    obtain ⟨sx, sy, sz⟩ := List.foldr padd ((0:ℝ), (0:ℝ), (0:ℝ)) (xs.map h)
    simp only [padd, psmul, Prod.mk.injEq]
    refine ⟨by ring, by ring, by ring⟩

theorem sumPts_map_psmul_const {α : Type} (l : List α) (k : α → ℝ) (C : Pt) :
    sumPts (l.map (fun x => psmul (k x) C)) = psmul ((l.map k).sum) C := by
  induction l with
  | nil => simp [sumPts, psmul]
  | cons x xs ih =>
    simp only [sumPts, List.map_cons, List.foldr_cons, List.sum_cons] at ih ⊢
    rw [ih]
    obtain ⟨c1, c2, c3⟩ := C
    simp only [padd, psmul, Prod.mk.injEq]
    refine ⟨by ring, by ring, by ring⟩

theorem sumPts_map_psmul_pts (k : ℝ) (l : List Pt) :
    sumPts (l.map (psmul k)) = psmul k (sumPts l) := by
  induction l with
  | nil => simp [sumPts, psmul]
  | cons x xs ih =>
    simp only [sumPts, List.map_cons, List.foldr_cons] at ih ⊢
    rw [ih]
    obtain ⟨x1, x2, x3⟩ := x
    obtain ⟨sx, sy, sz⟩ := List.foldr padd ((0:ℝ), (0:ℝ), (0:ℝ)) xs
    simp only [padd, psmul, Prod.mk.injEq]
    refine ⟨by ring, by ring, by ring⟩

theorem meanPts_map_psmul (k : ℝ) (l : List Pt) :
    meanPts (l.map (psmul k)) = psmul k (meanPts l) := by
  unfold meanPts
  rw [List.length_map, sumPts_map_psmul_pts, psmul_psmul, psmul_psmul, mul_comm]

theorem faceCenter_affine (m : Mesh) (s : ℝ) (c : Pt) (f : ℕ × ℕ × ℕ)
    (h1 : f.1 < m.vertices.length) (h2 : f.2.1 < m.vertices.length)
    (h3 : f.2.2 < m.vertices.length) :
    faceCenter { vertices := m.vertices.map (fun v => psmul s (psub v c)),
                 faces := m.faces } f
      = psmul s (psub (faceCenter m f) c) := by
  unfold faceCenter
  rw [vtx_map _ _ _ _ h1, vtx_map _ _ _ _ h2, vtx_map _ _ _ _ h3]
  exact center_affine_alg s c _ _ _

theorem faceArea_affine (m : Mesh) (s : ℝ) (hs : 0 ≤ s) (c : Pt)
    (f : ℕ × ℕ × ℕ) (h1 : f.1 < m.vertices.length)
    (h2 : f.2.1 < m.vertices.length) (h3 : f.2.2 < m.vertices.length) :
    faceArea { vertices := m.vertices.map (fun v => psmul s (psub v c)),
               faces := m.faces } f
      = s ^ 2 * faceArea m f := by
  unfold faceArea
  rw [vtx_map _ _ _ _ h1, vtx_map _ _ _ _ h2, vtx_map _ _ _ _ h3,
    psub_psmul_affine, psub_psmul_affine, pcross_psmul, pnorm_smul,
    abs_of_nonneg (mul_self_nonneg s)]
  rw [sq]
  ring

theorem totalArea_affine (m : Mesh) (s : ℝ) (hs : 0 ≤ s) (c : Pt)
    (hF : FacesInRange m) :
    totalArea { vertices := m.vertices.map (fun v => psmul s (psub v c)),
                faces := m.faces }
      = s ^ 2 * totalArea m := by
  unfold totalArea
  dsimp only
  rw [List.map_congr_left (fun f hf =>
    faceArea_affine m s hs c f (hF f hf).1 (hF f hf).2.1 (hF f hf).2.2)]
  exact List.sum_map_mul_left m.faces (faceArea m) (s ^ 2)

theorem face_affine_alg (s a : ℝ) (t c : Pt) :
    psmul (s ^ 2 * a) (psmul s (psub t c))
      = psub (psmul (s ^ 3) (psmul a t)) (psmul (s ^ 3 * a) c) := by
  obtain ⟨t1, t2, t3⟩ := t; obtain ⟨c1, c2, c3⟩ := c
  simp only [psmul, psub, Prod.mk.injEq]
  refine ⟨by ring, by ring, by ring⟩

theorem centroid_affine_alg (s A : ℝ) (N c : Pt) (hs : s ≠ 0) (hA : A ≠ 0) :
    psmul (s ^ 2 * A)⁻¹ (psub (psmul (s ^ 3) N) (psmul (s ^ 3 * A) c))
      = psmul s (psub (psmul A⁻¹ N) c) := by
  obtain ⟨n1, n2, n3⟩ := N; obtain ⟨c1, c2, c3⟩ := c
  simp only [psmul, psub, Prod.mk.injEq]
  refine ⟨?_, ?_, ?_⟩ <;> field_simp <;> ring

theorem trimeshCentroid_affine (m : Mesh) (s : ℝ) (c : Pt) (hs : 0 < s)
    (hF : FacesInRange m) (hA : totalArea m ≠ 0) :
    trimeshCentroid { vertices := m.vertices.map (fun v => psmul s (psub v c)),
                      faces := m.faces }
      = psmul s (psub (trimeshCentroid m) c) := by
  have hTA := totalArea_affine m s hs.le c hF
  have hAne : totalArea { vertices := m.vertices.map (fun v => psmul s (psub v c)),
                          faces := m.faces } ≠ 0 := by
    rw [hTA]
    exact mul_ne_zero (pow_ne_zero 2 hs.ne') hA
  unfold trimeshCentroid
  rw [if_neg hAne, if_neg hA]
  dsimp only
  rw [List.map_congr_left (fun f hf => show
      psmul (faceArea { vertices := m.vertices.map (fun v => psmul s (psub v c)),
                        faces := m.faces } f)
            (faceCenter { vertices := m.vertices.map (fun v => psmul s (psub v c)),
                          faces := m.faces } f)
      = psub (psmul (s ^ 3) (psmul (faceArea m f) (faceCenter m f)))
             (psmul (s ^ 3 * faceArea m f) c) from by
    rw [faceArea_affine m s hs.le c f (hF f hf).1 (hF f hf).2.1 (hF f hf).2.2,
      faceCenter_affine m s c f (hF f hf).1 (hF f hf).2.1 (hF f hf).2.2]
    exact face_affine_alg s (faceArea m f) (faceCenter m f) c)]
  rw [sumPts_map_psub, sumPts_map_psmul, sumPts_map_psmul_const,
    List.sum_map_mul_left m.faces (faceArea m) (s ^ 3), hTA]
  exact centroid_affine_alg s (totalArea m)
    (sumPts (m.faces.map fun f => psmul (faceArea m f) (faceCenter m f))) c
    hs.ne' hA

theorem sqrt_sixteen : Real.sqrt 16 = 4 := by
  rw [show (16 : ℝ) = 4 ^ 2 from by norm_num]
  exact Real.sqrt_sq (by norm_num)

theorem sqrt_144 : Real.sqrt 144 = 12 := by
  rw [show (144 : ℝ) = 12 ^ 2 from by norm_num]
  exact Real.sqrt_sq (by norm_num)

theorem faceArea_c4 : faceArea c4Mesh (0, 1, 2) = 2 := by
  unfold faceArea
  norm_num [show vtx c4Mesh 0 = ((0 : ℝ), (0 : ℝ), (0 : ℝ)) from rfl,
    show vtx c4Mesh 1 = ((2 : ℝ), (0 : ℝ), (0 : ℝ)) from rfl,
    show vtx c4Mesh 2 = ((0 : ℝ), (2 : ℝ), (0 : ℝ)) from rfl,
    pcross, psub, pnorm, pdot, sqrt_sixteen]

theorem faceCenter_c4 : faceCenter c4Mesh (0, 1, 2) = (2/3, 2/3, 0) := by
  unfold faceCenter
  norm_num [show vtx c4Mesh 0 = ((0 : ℝ), (0 : ℝ), (0 : ℝ)) from rfl,
    show vtx c4Mesh 1 = ((2 : ℝ), (0 : ℝ), (0 : ℝ)) from rfl,
    show vtx c4Mesh 2 = ((0 : ℝ), (2 : ℝ), (0 : ℝ)) from rfl,
    padd, psmul, Prod.ext_iff]

theorem totalArea_c4 : totalArea c4Mesh = 2 := by
  unfold totalArea
  rw [show c4Mesh.faces = [(0, 1, 2)] from rfl, List.map_cons, List.map_nil,
    faceArea_c4]
  norm_num

theorem trimeshCentroid_c4 : trimeshCentroid c4Mesh = (2/3, 2/3, 0) := by
  unfold trimeshCentroid
  rw [totalArea_c4, if_neg (by norm_num)]
  rw [show c4Mesh.faces = [(0, 1, 2)] from rfl, List.map_cons, List.map_nil,
    faceArea_c4, faceCenter_c4]
  norm_num [sumPts, padd, psmul, Prod.ext_iff]

theorem faceArea_c6_0 : faceArea c6Mesh (0, 1, 2) = 2 := by
  unfold faceArea
  norm_num [show vtx c6Mesh 0 = ((0 : ℝ), (0 : ℝ), (0 : ℝ)) from rfl,
    show vtx c6Mesh 1 = ((2 : ℝ), (0 : ℝ), (0 : ℝ)) from rfl,
    show vtx c6Mesh 2 = ((0 : ℝ), (2 : ℝ), (0 : ℝ)) from rfl,
    pcross, psub, pnorm, pdot, sqrt_sixteen]

theorem faceArea_c6_1 : faceArea c6Mesh (1, 3, 2) = 6 := by
  unfold faceArea
  norm_num [show vtx c6Mesh 1 = ((2 : ℝ), (0 : ℝ), (0 : ℝ)) from rfl,
    show vtx c6Mesh 3 = ((8 : ℝ), (0 : ℝ), (0 : ℝ)) from rfl,
    show vtx c6Mesh 2 = ((0 : ℝ), (2 : ℝ), (0 : ℝ)) from rfl,
    pcross, psub, pnorm, pdot, sqrt_144]

theorem faceCenter_c6_0 : faceCenter c6Mesh (0, 1, 2) = (2/3, 2/3, 0) := by
  unfold faceCenter
  norm_num [show vtx c6Mesh 0 = ((0 : ℝ), (0 : ℝ), (0 : ℝ)) from rfl,
    show vtx c6Mesh 1 = ((2 : ℝ), (0 : ℝ), (0 : ℝ)) from rfl,
    show vtx c6Mesh 2 = ((0 : ℝ), (2 : ℝ), (0 : ℝ)) from rfl,
    padd, psmul, Prod.ext_iff]

theorem faceCenter_c6_1 : faceCenter c6Mesh (1, 3, 2) = (10/3, 2/3, 0) := by
  unfold faceCenter
  norm_num [show vtx c6Mesh 1 = ((2 : ℝ), (0 : ℝ), (0 : ℝ)) from rfl,
    show vtx c6Mesh 3 = ((8 : ℝ), (0 : ℝ), (0 : ℝ)) from rfl,
    show vtx c6Mesh 2 = ((0 : ℝ), (2 : ℝ), (0 : ℝ)) from rfl,
    padd, psmul, Prod.ext_iff]

theorem totalArea_c6 : totalArea c6Mesh = 8 := by
  unfold totalArea
  rw [show c6Mesh.faces = [(0, 1, 2), (1, 3, 2)] from rfl, List.map_cons,
    List.map_cons, List.map_nil, faceArea_c6_0, faceArea_c6_1]
  norm_num

theorem trimeshCentroid_c6 : trimeshCentroid c6Mesh = (8/3, 2/3, 0) := by
  unfold trimeshCentroid
  rw [totalArea_c6, if_neg (by norm_num)]
  rw [show c6Mesh.faces = [(0, 1, 2), (1, 3, 2)] from rfl, List.map_cons,
    List.map_cons, List.map_nil, faceArea_c6_0, faceArea_c6_1,
    faceCenter_c6_0, faceCenter_c6_1]
  norm_num [sumPts, padd, psmul, Prod.ext_iff]

theorem specVertexCentroid_normalize_pos (m : Mesh)
    (hM : 0 < maxNorm (m.vertices.map (fun v => psub v (trimeshCentroid m)))) :
    specVertexCentroid (normalize_trimesh m) =
      psmul (maxNorm (m.vertices.map (fun v => psub v (trimeshCentroid m))))⁻¹
        (meanPts (m.vertices.map (fun v => psub v (trimeshCentroid m)))) := by
  unfold specVertexCentroid
  simp only [normalize_trimesh]
  rw [if_pos hM]
  exact meanPts_map_psmul _ _

/-- Claim C6 (amended): `_normalize_trimesh` subtracts the **trimesh**
centroid — the area-weighted average of the triangle centroids, not the
simple mean of the vertex positions — from every vertex; with
`M = max ‖v‖` over the centered vertices positive it divides every
coordinate by `M`, after which the maximum vertex distance from the origin
is exactly 1 and (for a mesh with in-range faces and nonzero total surface
area) the area-weighted centroid of the result is at the origin; with
`M = 0` the centered mesh is left unscaled. -/
theorem normalize_trimesh_centroid_scaling (m : Mesh)
    (hF : FacesInRange m) (hA : totalArea m ≠ 0)
    (hM : 0 < maxNorm (m.vertices.map (fun v => psub v (trimeshCentroid m)))) :
    (normalize_trimesh m).vertices =
      m.vertices.map (fun v =>
        psmul (maxNorm (m.vertices.map (fun w => psub w (trimeshCentroid m))))⁻¹
          (psub v (trimeshCentroid m))) ∧
    maxNorm (normalize_trimesh m).vertices = 1 ∧
    trimeshCentroid (normalize_trimesh m) = (0, 0, 0) := by
  have hver : (normalize_trimesh m).vertices =
      (m.vertices.map (fun v => psub v (trimeshCentroid m))).map
        (psmul (maxNorm (m.vertices.map (fun v => psub v (trimeshCentroid m))))⁻¹) := by
    simp only [normalize_trimesh]
    rw [if_pos hM]
  have heq : normalize_trimesh m =
      { vertices := m.vertices.map (fun v =>
          psmul (maxNorm (m.vertices.map (fun w => psub w (trimeshCentroid m))))⁻¹
            (psub v (trimeshCentroid m))),
        faces := m.faces } := by
    simp only [normalize_trimesh]
    rw [if_pos hM, List.map_map]
    rfl
  refine ⟨?_, ?_, ?_⟩
  · rw [hver, List.map_map]
    rfl
  · rw [hver, maxNorm_map_smul _ (inv_nonneg.mpr hM.le), inv_mul_cancel₀ hM.ne']
  · rw [heq,
      trimeshCentroid_affine m _ (trimeshCentroid m) (inv_pos.mpr hM) hF hA,
      psub_self_pt, psmul_zero_pt]

theorem normalize_trimesh_centroid_scaling_spot :
    (normalize_trimesh c4Mesh).vertices =
      c4Mesh.vertices.map (fun v =>
        psmul (maxNorm (c4Mesh.vertices.map
            (fun w => psub w (trimeshCentroid c4Mesh))))⁻¹
          (psub v (trimeshCentroid c4Mesh))) ∧
    maxNorm (normalize_trimesh c4Mesh).vertices = 1 ∧
    trimeshCentroid (normalize_trimesh c4Mesh) = (0, 0, 0) :=
  normalize_trimesh_centroid_scaling c4Mesh
    (by
      intro f hf
      simp only [c4Mesh, List.mem_cons, List.not_mem_nil, or_false] at hf
      subst hf
      refine ⟨by norm_num [c4Mesh], by norm_num [c4Mesh], by norm_num [c4Mesh]⟩)
    (by rw [totalArea_c4]; norm_num)
    (by
      rw [trimeshCentroid_c4]
      have h1 : 0 < pnorm (psub ((0 : ℝ), (0 : ℝ), (0 : ℝ)) (2/3, 2/3, 0)) := by
        unfold pnorm
        apply Real.sqrt_pos.mpr
        norm_num [pdot, psub]
      calc (0 : ℝ) < pnorm (psub ((0 : ℝ), (0 : ℝ), (0 : ℝ)) (2/3, 2/3, 0)) := h1
        _ ≤ _ := by
          rw [show c4Mesh.vertices =
            [((0 : ℝ), (0 : ℝ), (0 : ℝ)), ((2 : ℝ), (0 : ℝ), (0 : ℝ)),
             ((0 : ℝ), (2 : ℝ), (0 : ℝ))] from rfl]
          simp only [List.map_cons, List.map_nil, maxNorm, List.foldr_cons,
            List.foldr_nil]
          exact le_max_left _ _)

/-- Claim C6 counterexample: on a mesh whose two triangles have different
areas, the mean of the vertex positions of the normalized mesh is **not**
the origin, because `_normalize_trimesh` subtracted the area-weighted
trimesh centroid, which differs from the simple vertex-position centroid
the claim names. -/
theorem normalize_trimesh_not_vertex_mean :
    specVertexCentroid (normalize_trimesh c6Mesh) ≠ (0, 0, 0) ∧
      trimeshCentroid c6Mesh ≠ specVertexCentroid c6Mesh := by
  have hM : 0 < maxNorm (c6Mesh.vertices.map
      (fun v => psub v (trimeshCentroid c6Mesh))) := by
    rw [trimeshCentroid_c6]
    have h1 : 0 < pnorm (psub ((0 : ℝ), (0 : ℝ), (0 : ℝ)) (8/3, 2/3, 0)) := by
      unfold pnorm
      apply Real.sqrt_pos.mpr
      norm_num [pdot, psub]
    calc (0 : ℝ) < pnorm (psub ((0 : ℝ), (0 : ℝ), (0 : ℝ)) (8/3, 2/3, 0)) := h1
      _ ≤ _ := by
        rw [show c6Mesh.vertices =
          [((0 : ℝ), (0 : ℝ), (0 : ℝ)), ((2 : ℝ), (0 : ℝ), (0 : ℝ)),
           ((0 : ℝ), (2 : ℝ), (0 : ℝ)), ((8 : ℝ), (0 : ℝ), (0 : ℝ))] from rfl]
        simp only [List.map_cons, List.map_nil, maxNorm, List.foldr_cons,
          List.foldr_nil]
        exact le_max_left _ _
  constructor
  · rw [specVertexCentroid_normalize_pos c6Mesh hM]
    have hmean : meanPts (c6Mesh.vertices.map
        (fun v => psub v (trimeshCentroid c6Mesh)))
        = (-(1/6 : ℝ), -(1/6 : ℝ), 0) := by
      rw [trimeshCentroid_c6]
      rw [show c6Mesh.vertices =
        [((0 : ℝ), (0 : ℝ), (0 : ℝ)), ((2 : ℝ), (0 : ℝ), (0 : ℝ)),
         ((0 : ℝ), (2 : ℝ), (0 : ℝ)), ((8 : ℝ), (0 : ℝ), (0 : ℝ))] from rfl]
      norm_num [meanPts, sumPts, padd, psub, psmul, Prod.ext_iff]
    rw [hmean]
    intro h
    have h1 := congrArg (fun p : Pt => p.1) h
    simp only [psmul] at h1
    rcases mul_eq_zero.mp h1 with h2 | h2
    · exact (inv_ne_zero hM.ne') h2
    · norm_num at h2
  · rw [trimeshCentroid_c6]
    unfold specVertexCentroid
    rw [show c6Mesh.vertices =
      [((0 : ℝ), (0 : ℝ), (0 : ℝ)), ((2 : ℝ), (0 : ℝ), (0 : ℝ)),
       ((0 : ℝ), (2 : ℝ), (0 : ℝ)), ((8 : ℝ), (0 : ℝ), (0 : ℝ))] from rfl]
    norm_num [meanPts, sumPts, padd, psmul, Prod.ext_iff]

theorem histogram64_length (data : List ℝ) : (histogram64 data).length = 64 := by
  simp only [histogram64, List.length_map, List.length_range]

theorem compute_d2_length (points : List Pt) (idx1 idx2 : List ℕ) :
    (compute_d2_descriptor points idx1 idx2).length = 64 := by
  simp only [compute_d2_descriptor, List.length_map]
  exact histogram64_length _

theorem sortDesc_length (l : List ℝ) : (sortDesc l).length = l.length := by
  unfold sortDesc
  exact List.length_insertionSort (r := fun a b => b ≤ a) l

theorem eigvalsh3_length (A : Matrix (Fin 3) (Fin 3) ℝ) :
    (eigvalsh3 A).length = 3 := by
  simp only [eigvalsh3, List.length_map, List.length_finRange]

theorem compute_moments_length (pts : List Pt) :
    (compute_moments pts).length = 10 := by
  simp [compute_moments, sortDesc_length, eigvalsh3_length]

theorem normalize_vectors_of_norm_eq_zero (v : List ℝ) (h : l2norm v = 0) :
    normalize_vectors v = v := by
  simp [normalize_vectors, h]

/-- Claim C4 (confirmed): for every mesh with at least 3 vertices and at
least 1 face (and any sampling/hull inputs), `extract_features` is the
L2-normalization of the 83-value vector laid out as [0:64) D2 histogram,
[64:69) basic statistics, [69:72) bounding-box quotients, [72] convexity,
[73:83) moments; the result has exactly 83 entries and L2 norm 1, except
that a pre-normalization vector of norm 0 is returned unchanged. -/
theorem extract_features_spec (m : Mesh) (d2pts : List Pt) (idx1 idx2 : List ℕ)
    (mpts : List Pt) (hv : ℝ) (h3 : 3 ≤ m.vertices.length)
    (h1f : 1 ≤ m.faces.length) :
    (extract_features m d2pts idx1 idx2 mpts hv).length = 83 ∧
    extract_features m d2pts idx1 idx2 mpts hv =
      normalize_vectors (rawFeatures m d2pts idx1 idx2 mpts hv) ∧
    rawFeatures m d2pts idx1 idx2 mpts hv =
      compute_d2_descriptor d2pts idx1 idx2 ++ compute_basic_features m ++
        compute_bbox_features m ++ [compute_convexity m hv] ++
        compute_moments mpts ∧
    (compute_d2_descriptor d2pts idx1 idx2).length = 64 ∧
    (compute_basic_features m).length = 5 ∧
    (compute_bbox_features m).length = 3 ∧
    (compute_moments mpts).length = 10 ∧
    (l2norm (rawFeatures m d2pts idx1 idx2 mpts hv) ≠ 0 →
      l2norm (extract_features m d2pts idx1 idx2 mpts hv) = 1) ∧
    (l2norm (rawFeatures m d2pts idx1 idx2 mpts hv) = 0 →
      extract_features m d2pts idx1 idx2 mpts hv =
        rawFeatures m d2pts idx1 idx2 mpts hv) := by
  have hlen : (rawFeatures m d2pts idx1 idx2 mpts hv).length = 83 := by
    simp [rawFeatures, compute_d2_length, compute_moments_length,
      compute_basic_features, compute_bbox_features]
  refine ⟨(length_normalize_vectors _).trans hlen, rfl, rfl,
    compute_d2_length _ _ _, by simp [compute_basic_features],
    by simp [compute_bbox_features], compute_moments_length _, ?_, ?_⟩
  · intro h
    exact l2norm_normalize_vectors _ h
  · intro h
    exact normalize_vectors_of_norm_eq_zero _ h

theorem extract_features_spec_spot :
    (extract_features c4Mesh [] [] [] [] 0).length = 83 ∧
    extract_features c4Mesh [] [] [] [] 0 =
      normalize_vectors (rawFeatures c4Mesh [] [] [] [] 0) ∧
    rawFeatures c4Mesh [] [] [] [] 0 =
      compute_d2_descriptor [] [] [] ++ compute_basic_features c4Mesh ++
        compute_bbox_features c4Mesh ++ [compute_convexity c4Mesh 0] ++
        compute_moments [] ∧
    (compute_d2_descriptor [] [] []).length = 64 ∧
    (compute_basic_features c4Mesh).length = 5 ∧
    (compute_bbox_features c4Mesh).length = 3 ∧
    (compute_moments []).length = 10 ∧
    (l2norm (rawFeatures c4Mesh [] [] [] [] 0) ≠ 0 →
      l2norm (extract_features c4Mesh [] [] [] [] 0) = 1) ∧
    (l2norm (rawFeatures c4Mesh [] [] [] [] 0) = 0 →
      extract_features c4Mesh [] [] [] [] 0 =
        rawFeatures c4Mesh [] [] [] [] 0) :=
  extract_features_spec c4Mesh [] [] [] [] 0
    (by norm_num [c4Mesh]) (by norm_num [c4Mesh])
